import Mathlib

/-!
Verification of the windsurf-update pipeline (main.go) against its
natural-language specification.  The Go source is shallowly embedded:
pure string utilities become Lean functions on `String` (computed
structurally over `String.data`), and the effectful pipeline stages
(`downloadFile`, `extractArchive`, the orchestration in `main`) become
pure functions that return the ordered trace of filesystem / network
effects they would perform, parameterised over an abstract environment
(server responses, pre-existing files, user input).
-/

/-! ## String utilities

The Go code uses `strings.Split`, `strings.TrimPrefix`,
`strings.TrimSpace`, `strings.HasPrefix` and `strconv.Atoi`.  The
built-in Lean `String` operations are not kernel-reducible, so each is
re-implemented structurally over the character list `String.data`. -/

/-- Character-list version of `strings.HasPrefix`: `hasPfx p s` is true
iff `p` is a prefix of `s`. -/
def hasPfx : List Char → List Char → Bool
  | [], _ => true
  | _ :: _, [] => false
  | p :: ps, c :: cs => p = c && hasPfx ps cs

/-- Go `strings.HasPrefix s pre`. -/
def strStarts (s pre : String) : Bool := hasPfx pre.data s.data

/-- Split a character list at every occurrence of `sep`
(Go `strings.Split` with a one-character separator; `strings.Split`
always returns at least one (possibly empty) field). -/
def splitSep (sep : Char) : List Char → List (List Char)
  | [] => [[]]
  | c :: cs =>
    match splitSep sep cs with
    | [] => [[]]
    | r :: rs => if c = sep then [] :: r :: rs else (c :: r) :: rs

/-- Go `strings.Split v "."` as used by `compareVersions`. -/
def splitOnDot (s : String) : List String := (splitSep '.' s.data).map String.mk

/-- Go `strings.Split p "/"`, used to model `path/filepath` lexical
processing. -/
def splitSlash (s : String) : List String := (splitSep '/' s.data).map String.mk

/-- Go `strings.TrimPrefix s pre`: remove one leading occurrence of
`pre`, or return `s` unchanged when `pre` is not a prefix. -/
def trimLeading (s pre : String) : String :=
  if hasPfx pre.data s.data then String.mk (s.data.drop pre.data.length) else s

/-- Whitespace recognised by Go `strings.TrimSpace` (the ASCII portion
of `unicode.IsSpace`; the version marker only ever holds an ASCII
version string plus possible trailing newline). -/
def isSpaceChar (c : Char) : Bool :=
  c = ' ' || c = '\t' || c = '\n' || c = '\r' || c = '\x0b' || c = '\x0c'

/-- Go `strings.TrimSpace`. -/
def trimSpace (s : String) : String :=
  String.mk (((s.data.dropWhile isSpaceChar).reverse.dropWhile isSpaceChar).reverse)

/-! ## strconv.Atoi

`compareVersions` calls `v1Val, _ = strconv.Atoi(part)` and discards the
error, so an unparsable component leaves the zero value `0`.  Go's
`ParseInt` accepts an optional sign followed by one or more ASCII
digits; on a syntax error it returns `0`, and on a range error it
returns the value clamped to the 64-bit range (which the caller then
uses, the error again being discarded). -/

/-- Parse a non-empty all-digit character list to its numeric value. -/
def parseDigits (cs : List Char) : Option Nat :=
  if cs ≠ [] && cs.all (fun c => c.isDigit) then
    some (cs.foldl (fun a c => a * 10 + (c.toNat - 48)) 0)
  else none

/-- Strip the optional leading sign, returning the sign and the rest
(Go `strconv.ParseInt` sign handling). -/
def splitSign (cs : List Char) : Int × List Char :=
  match cs with
  | '+' :: rest => (1, rest)
  | '-' :: rest => (-1, rest)
  | rest => (1, rest)

def int64Max : Int := 2 ^ 63 - 1

def int64Min : Int := -(2 ^ 63)

/-- Go `strconv.ParseInt` range-error behaviour: out-of-range values
are clamped to the 64-bit limits. -/
def clampInt64 (x : Int) : Int :=
  if x > int64Max then int64Max else if x < int64Min then int64Min else x

/-- Go `v, _ := strconv.Atoi(s)`: the parsed value, or `0` when parsing
fails (the error is discarded by `compareVersions`). -/
def atoi (s : String) : Int :=
  match parseDigits (splitSign s.data).2 with
  | none => 0
  | some n => clampInt64 ((splitSign s.data).1 * n)

/-- Whether `strconv.Atoi` succeeds on `s` (no syntax error). -/
def isNumericLit (s : String) : Bool := (parseDigits (splitSign s.data).2).isSome

/-! ## compareVersions (main.go `compareVersions`)

The Go loop runs `i` from `0` to `max(len(v1Parts), len(v2Parts)) - 1`,
reading component `i` of each side (`0` when the side is too short,
`Atoi`-parsed otherwise) and returning at the first strictly smaller /
strictly larger pair.  `compareVersionsAux` is that loop, with the
index replaced by structural recursion over the two component lists:
iteration `i` of the loop is exactly the `i`-th unfolding. -/

/-- The loop iterations in which `v1` is exhausted and its components
read as `0` (so `v1Val = 0` and `v2Val = atoi p`). -/
def cmpAgainstZeroLeft : List String → Int
  | [] => 0
  | p :: r => if 0 < atoi p then -1 else if atoi p < 0 then 1 else cmpAgainstZeroLeft r

/-- The loop iterations in which `v2` is exhausted and its components
read as `0` (so `v1Val = atoi p` and `v2Val = 0`). -/
def cmpAgainstZeroRight : List String → Int
  | [] => 0
  | p :: r => if atoi p < 0 then -1 else if 0 < atoi p then 1 else cmpAgainstZeroRight r

def compareVersionsAux : List String → List String → Int
  | [], r2 => cmpAgainstZeroLeft r2
  | p1 :: r1, [] => cmpAgainstZeroRight (p1 :: r1)
  | p1 :: r1, p2 :: r2 =>
    if atoi p1 < atoi p2 then -1
    else if atoi p2 < atoi p1 then 1
    else compareVersionsAux r1 r2

/-- main.go `compareVersions(v1, v2)`. -/
def compareVersions (v1 v2 : String) : Int :=
  compareVersionsAux (splitOnDot v1) (splitOnDot v2)

/-! Spec-side comparison, written from the spec's words (for the
refinement claim C4): "component-wise numeric comparison of
dot-separated fields, right-padding the shorter version with zero
components". -/

/-- Pair up two integer lists, right-padding the shorter one with `0`. -/
def zipPad : List Int → List Int → List (Int × Int)
  | [], ys => ys.map (fun y => ((0 : Int), y))
  | x :: xs, [] => (x, 0) :: zipPad xs []
  | x :: xs, y :: ys => (x, y) :: zipPad xs ys

/-- First nonzero component-wise comparison, else `0`. -/
def cmpPairs : List (Int × Int) → Int
  | [] => 0
  | (x, y) :: rest => if x < y then -1 else if y < x then 1 else cmpPairs rest

/-- Version comparison as the spec words it: split on dots, parse each
field numerically, right-pad the shorter side with zeros, compare
component-wise. -/
def compareVersionsSpec (v1 v2 : String) : Int :=
  cmpPairs (zipPad ((splitOnDot v1).map atoi) ((splitOnDot v2).map atoi))

/-- A version component that `strconv.Atoi` rejects, or the literal
component `"0"` (claim C10's "non-numeric or 0"). -/
def zeroish (c : String) : Bool := !isNumericLit c || c = "0"

/-! ## Lexical path processing (Go `path/filepath`, Linux rules)

The tool only extracts on Linux (`strings.HasPrefix(*platform,
"linux-")`), so the Unix variants of `filepath.Clean`, `filepath.IsAbs`
and `filepath.IsLocal` are modelled. -/

/-- The component-processing core of Go `filepath.Clean`: drop empty
and `"."` components, resolve `".."` against a preceding component,
keep leading `".."`s on a relative path, drop them on a rooted one.
`acc` holds the already-emitted components in reverse. -/
def cleanSegs (rooted : Bool) : List String → List String → List String
  | acc, [] => acc.reverse
  | acc, c :: cs =>
    if c = "" || c = "." then cleanSegs rooted acc cs
    else if c = ".." then
      match acc with
      | [] => if rooted then cleanSegs rooted [] cs else cleanSegs rooted [".."] cs
      | a :: rest =>
        if a = ".." then cleanSegs rooted (c :: a :: rest) cs
        else cleanSegs rooted rest cs
    else cleanSegs rooted (c :: acc) cs

/-- Join path components with `"/"`. -/
def joinSegs : List String → String
  | [] => ""
  | [s] => s
  | s :: rest => s ++ "/" ++ joinSegs rest

/-- Go `filepath.Clean` (Unix). -/
def cleanPath (p : String) : String :=
  if p = "" then "."
  else
    let rooted := hasPfx ['/'] p.data
    let out := joinSegs (cleanSegs rooted [] (splitSlash p))
    if rooted then "/" ++ out
    else if out = "" then "." else out

/-- Go `filepath.IsLocal` (Unix): false for the empty or an absolute
path; otherwise, if any component is `"."` or `".."`, clean the path
first; the path is local iff the cleaned form is not `".."` and does
not start with `"../"` — i.e. lexical resolution stays inside the
subtree. -/
def isLocal (path : String) : Bool :=
  if hasPfx ['/'] path.data || path = "" then false
  else
    let hasDots := (splitSlash path).any (fun part => part = "." || part = "..")
    let p := if hasDots then cleanPath path else path
    !(p = ".." || strStarts p "../")

/-- Go `filepath.Join(a, b)` (Unix): clean of the `"/"`-join of the
non-empty arguments, or `""` when both are empty. -/
def joinPath (a b : String) : String :=
  if a = "" && b = "" then ""
  else if a = "" then cleanPath b
  else if b = "" then cleanPath a
  else cleanPath (a ++ "/" ++ b)

/-! ## extractArchive (main.go `extractArchive`)

The tar stream is abstracted to the list of headers (with regular-file
contents) that `tar.Reader.Next` would yield.  Filesystem effects are
recorded as an ordered action trace; the oracle `fsOk` says whether a
given filesystem operation (`os.MkdirAll`, or the
`os.OpenFile`/`io.Copy` pair) succeeds, modelling I/O errors.  An
action appears in the trace only if it succeeded. -/

inductive TypeFlag
  | dir
  | reg
  | other
  deriving DecidableEq, Repr

/-- One tar header as consumed by the extraction loop: entry name, type
flag, permission bits (`header.Mode`), and — for regular files — the
entry's byte stream. -/
structure TarEntry where
  name : String
  typeflag : TypeFlag
  mode : Nat
  content : List Nat
  deriving DecidableEq, Repr

/-- A filesystem effect of extraction: `os.MkdirAll(target, 0755)`, or
`os.OpenFile(target, O_CREATE|O_RDWR, mode)` followed by copying the
entry's byte stream into it. -/
inductive FsAction
  | mkdirAll : String → FsAction
  | writeFile : String → Nat → List Nat → FsAction
  deriving DecidableEq, Repr

/-- Outcome of processing one tar header: abort the extraction with an
error, or continue after performing the listed actions. -/
inductive StepRes
  | fail : String → StepRes
  | cont : List FsAction → StepRes
  deriving DecidableEq, Repr

/-- The per-entry body of the `extractArchive` loop, in source order:
(1) reject the entry when `!filepath.IsLocal(header.Name)` — before any
path join; (2) strip one leading `"Windsurf/"` and skip the entry when
the name becomes empty; (3) join with the destination and dispatch on
the type flag (directory / regular file / silently ignored other). -/
def entryStep (destPath : String) (fsOk : FsAction → Bool) (header : TarEntry) : StepRes :=
  if !isLocal header.name then
    StepRes.fail ("non-local path detected in tar file: " ++ header.name)
  else
    let name := trimLeading header.name "Windsurf/"
    if name = "" then StepRes.cont []
    else
      let target := joinPath destPath name
      match header.typeflag with
      | TypeFlag.dir =>
        let a := FsAction.mkdirAll target
        if fsOk a then StepRes.cont [a]
        else StepRes.fail ("mkdir failed: " ++ target)
      | TypeFlag.reg =>
        let a := FsAction.writeFile target header.mode header.content
        if fsOk a then StepRes.cont [a]
        else StepRes.fail ("open or write failed: " ++ target)
      | TypeFlag.other => StepRes.cont []

/-- main.go `extractArchive(archivePath, destPath)` over the archive's
header list: the ordered trace of performed filesystem actions, and
`some msg` when the loop returned an error (the first failing entry
aborts the whole extraction; nothing after it runs). -/
def extractArchive (destPath : String) (fsOk : FsAction → Bool) :
    List TarEntry → List FsAction × Option String
  | [] => ([], none)
  | header :: rest =>
    match entryStep destPath fsOk header with
    | StepRes.fail msg => ([], some msg)
    | StepRes.cont as =>
      let r := extractArchive destPath fsOk rest
      (as ++ r.1, r.2)

/-! ## downloadFile (main.go `downloadFile`)

The server is abstracted as a function from "does the request carry a
`Range` header" to the response it returns; the pre-existing
`.partial` file is abstracted to its byte contents.  The model records
the requests issued (by their range flag), whether the stale resume
file was deleted, and the final outcome: the bytes renamed into the
destination path, or the transfer error. -/

structure HttpResponse where
  status : Nat
  body : List Nat
  deriving DecidableEq, Repr

deriving instance DecidableEq for Except

structure DlOutcome where
  /-- The HTTP requests issued, in order; `true` means the request
  carried a `Range: bytes=startOffset-` header. -/
  requests : List Bool
  /-- Whether `os.Remove(partialPath)` ran (the range-unsupported
  fallback). -/
  removedStale : Bool
  /-- Outcome: `Except.ok bytes` is the file content renamed onto the
  destination path; `Except.error msg` is a failed transfer. -/
  result : Except String (List Nat)
  deriving DecidableEq, Repr

/-- main.go `downloadFile(url, filepath)`.  `resumeData` is the content
of a pre-existing `.partial` file (its size is `startOffset`);
`respond b` is the server's response to a request with (`b = true`) or
without a `Range` header.  The branch structure mirrors the source:
when a positive-size partial file exists the first request carries the
range header; a non-206 reply to it deletes the partial file, resets
`startOffset` to 0, and reissues the request once without the header;
the final status check accepts exactly 200 and 206 (in the honored-range
branch the reply is 206, so that check passes there by construction);
the file is appended to the partial content only when `startOffset` is
still positive, i.e. only in the honored-range branch. -/
def downloadFile (resumeData : Option (List Nat)) (respond : Bool → HttpResponse) : DlOutcome :=
  let startOffset : Nat := match resumeData with | some d => d.length | none => 0
  if 0 < startOffset then
    let resp := respond true
    if resp.status = 206 then
      ⟨[true], false,
        Except.ok ((match resumeData with | some d => d | none => []) ++ resp.body)⟩
    else
      let resp2 := respond false
      if resp2.status = 200 ∨ resp2.status = 206 then
        ⟨[true, false], true, Except.ok resp2.body⟩
      else
        ⟨[true, false], true,
          Except.error ("http request returned status " ++ toString resp2.status)⟩
  else
    let resp := respond false
    if resp.status = 200 ∨ resp.status = 206 then
      ⟨[false], false, Except.ok resp.body⟩
    else
      ⟨[false], false, Except.error ("http request returned status " ++ toString resp.status)⟩

/-! ## The orchestrator (main.go `main`, after release resolution)

`main` is modelled from the point where the release descriptor is in
hand (flag parsing, home-directory lookup and platform validation are
CLI wiring the spec treats as external).  The environment captures
everything the run observes: which files pre-exist, the marker
contents, whether the download / extraction succeed, the archive's
actual hash, the flags, and the user's prompt response.  The result is
the process exit code paired with the ordered trace of effects. -/

structure Release where
  windsurfVersion : String
  sha256Hash : String
  deriving DecidableEq, Repr

structure Env where
  /-- Whether `os.Stat(*installPath)` finds the installation root. -/
  installExists : Bool
  /-- Result of `os.ReadFile(versionMarker)`: `none` = absent or unreadable. -/
  markerContents : Option String
  /-- Whether `os.Stat(*downloadPath)` finds the download directory. -/
  downloadDirExists : Bool
  /-- Whether `os.Stat(archivePath)` finds `windsurf-<version>.tar.gz`. -/
  archiveExists : Bool
  /-- Whether `downloadFile` returns nil. -/
  downloadSucceeds : Bool
  /-- Result of `calculateSHA256(archivePath)` at verification time. -/
  archiveHash : String
  /-- The `--force-update` flag. -/
  forceUpdate : Bool
  /-- The `--yes` flag. -/
  yes : Bool
  /-- The `fmt.Scanln` response to the removal prompt. -/
  response : String
  /-- Whether the platform token starts with `"linux-"`. -/
  platformLinux : Bool
  /-- Whether `extractArchive` returns nil. -/
  extractOk : Bool
  release : Release
  deriving DecidableEq, Repr

/-- Observable effects of one orchestrator run, in program order. -/
inductive Event
  /-- Stage where `downloadFile` issues its network transfer for the archive. -/
  | download
  /-- Stage where `os.Rename(partialPath, filepath)` makes the downloaded bytes appear
  at the canonical archive path. -/
  | placeArchive
  /-- Stage where `calculateSHA256(archivePath)` is computed and compared with
  `release.SHA256Hash`. -/
  | verifyDigest
  /-- The interactive "Removing existing directory ..., are you sure?"
  prompt is shown. -/
  | promptUser
  /-- Stage running `os.RemoveAll(*installPath)`. -/
  | removeInstall
  /-- Stage running `os.MkdirAll(*installPath, 0755)`. -/
  | mkInstallDir
  /-- Stage where `extractArchive(archivePath, *installPath)` runs. -/
  | extractRun
  /-- The version marker file is (re)written. -/
  | writeMarker
  deriving DecidableEq, Repr

/-- The prompt check: Go aborts when
`len(response) < 1 || (response[0] != 'Y' && response[0] != 'y')`, so
the run proceeds iff the response is non-empty and starts with
`'Y'`/`'y'`. -/
def confirmResponse (response : String) : Bool :=
  match response.data with
  | [] => false
  | c :: _ => c = 'Y' || c = 'y'

/-- The already-up-to-date early exit in `main`: taken iff the install
root exists, `--force-update` is off, the marker is readable, and
`compareVersions(strings.TrimSpace(existing), latest) >= 0`. -/
def versionGate (env : Env) : Bool :=
  env.installExists && !env.forceUpdate &&
    (match env.markerContents with
     | none => false
     | some vsn => decide (0 ≤ compareVersions (trimSpace vsn) env.release.windsurfVersion))

/-- The tail of `main` after the install directory has been (re)made:
on a Linux platform run `extractArchive` (exit 1 on failure) and then
write the version marker; otherwise instruct manual installation and
exit 0. -/
def finishInstall (env : Env) (evs : List Event) : Nat × List Event :=
  if env.platformLinux then
    if env.extractOk then (0, evs ++ [Event.extractRun, Event.writeMarker])
    else (1, evs ++ [Event.extractRun])
  else (0, evs)

/-- Tail of `main` from the integrity check onward (`evs` already holds the
events of the stages before it, ending in `Event.verifyDigest`): exit 1
on a digest mismatch; otherwise, when the install root exists, remove
it — prompting first unless `--yes`, aborting with exit 1 on refusal —
then `os.MkdirAll` the root and hand over to `finishInstall`. -/
def afterVerify (env : Env) (evs : List Event) : Nat × List Event :=
  if env.archiveHash = env.release.sha256Hash then
    if env.installExists then
      if env.yes then finishInstall env (evs ++ [Event.removeInstall, Event.mkInstallDir])
      else if confirmResponse env.response then
        finishInstall env (evs ++ [Event.promptUser, Event.removeInstall, Event.mkInstallDir])
      else (1, evs ++ [Event.promptUser])
    else finishInstall env (evs ++ [Event.mkInstallDir])
  else (1, evs)

/-- main.go `main` after release resolution: the version-gate early
exit (exit 0, no effects); abort when the download directory is
missing; download the archive only when no file exists at the expected
archive path (renaming it into place on success, exit 1 on failure);
then verify the digest and continue with `afterVerify`. -/
def runMain (env : Env) : Nat × List Event :=
  if versionGate env then (0, [])
  else if !env.downloadDirExists then (1, [])
  else if !env.archiveExists then
    if env.downloadSucceeds then
      afterVerify env [Event.download, Event.placeArchive, Event.verifyDigest]
    else (1, [Event.download])
  else afterVerify env [Event.verifyDigest]

/-! ## Helper lemmas -/

theorem cmpAgainstZeroLeft_eq (ys : List String) :
    cmpAgainstZeroLeft ys = cmpPairs (zipPad [] (ys.map atoi)) := by
  induction ys with
  | nil => rfl
  | cons y ys ih => simp [cmpAgainstZeroLeft, zipPad, cmpPairs, ih]

theorem cmpAgainstZeroRight_eq (xs : List String) :
    cmpAgainstZeroRight xs = cmpPairs (zipPad (xs.map atoi) []) := by
  induction xs with
  | nil => rfl
  | cons x xs ih => simp [cmpAgainstZeroRight, zipPad, cmpPairs, ih]

theorem compareVersionsAux_eq (xs ys : List String) :
    compareVersionsAux xs ys = cmpPairs (zipPad (xs.map atoi) (ys.map atoi)) := by
  induction xs generalizing ys with
  | nil => simpa [compareVersionsAux] using cmpAgainstZeroLeft_eq ys
  | cons x xs ih =>
    cases ys with
    | nil => simpa [compareVersionsAux] using cmpAgainstZeroRight_eq (x :: xs)
    | cons y ys => simp [compareVersionsAux, zipPad, cmpPairs, ih]

theorem zeroish_atoi (s : String) (h : zeroish s = true) : atoi s = 0 := by
  by_cases hn : isNumericLit s = true
  · have hs : s = "0" := by
      unfold zeroish at h
      rw [hn] at h
      simpa using h
    subst hs
    decide
  · have hn' : isNumericLit s = false := by simpa using hn
    unfold isNumericLit at hn'
    unfold atoi
    rcases hp : parseDigits (splitSign s.data).2 with _ | n
    · rfl
    · rw [hp] at hn'
      simp at hn'

theorem cmpAgainstZeroLeft_zero (ys : List String) (hy : ∀ s ∈ ys, atoi s = 0) :
    cmpAgainstZeroLeft ys = 0 := by
  induction ys with
  | nil => rfl
  | cons y ys ih =>
    have h0 : atoi y = 0 := hy y (List.mem_cons_self _ _)
    simp only [cmpAgainstZeroLeft, h0, lt_irrefl, if_false]
    exact ih fun s hs => hy s (List.mem_cons_of_mem _ hs)

theorem cmpAgainstZeroRight_zero (xs : List String) (hx : ∀ s ∈ xs, atoi s = 0) :
    cmpAgainstZeroRight xs = 0 := by
  induction xs with
  | nil => rfl
  | cons x xs ih =>
    have h0 : atoi x = 0 := hx x (List.mem_cons_self _ _)
    simp only [cmpAgainstZeroRight, h0, lt_irrefl, if_false]
    exact ih fun s hs => hx s (List.mem_cons_of_mem _ hs)

theorem compareVersionsAux_zero (xs ys : List String)
    (hx : ∀ s ∈ xs, atoi s = 0) (hy : ∀ s ∈ ys, atoi s = 0) :
    compareVersionsAux xs ys = 0 := by
  induction xs generalizing ys with
  | nil => simpa [compareVersionsAux] using cmpAgainstZeroLeft_zero ys hy
  | cons x xs ih =>
    cases ys with
    | nil => simpa [compareVersionsAux] using cmpAgainstZeroRight_zero (x :: xs) hx
    | cons y ys =>
      have h0x : atoi x = 0 := hx x (List.mem_cons_self _ _)
      have h0y : atoi y = 0 := hy y (List.mem_cons_self _ _)
      simp only [compareVersionsAux, h0x, h0y, lt_irrefl, if_false]
      exact ih ys (fun s hs => hx s (List.mem_cons_of_mem _ hs))
        (fun s hs => hy s (List.mem_cons_of_mem _ hs))

/-! ## C4 and C10: version comparison -/

/-- Claim C4: `compareVersions` compares dot-separated version strings
component-wise as integers, right-padding the shorter version with zero
components (formalised as equality with `compareVersionsSpec`, the
comparison written from the spec's words), and in particular
`compare("1.2.3","1.2.10") < 0`, `compare("1.2","1.2.0") == 0`, and
`compare("2.0.0","1.9.9") > 0`. -/
theorem compareVersions_componentwise :
    (∀ v1 v2 : String, compareVersions v1 v2 = compareVersionsSpec v1 v2) ∧
    compareVersions "1.2.3" "1.2.10" < 0 ∧
    compareVersions "1.2" "1.2.0" = 0 ∧
    0 < compareVersions "2.0.0" "1.9.9" := by
  refine ⟨fun v1 v2 => ?_, by decide, by decide, by decide⟩
  unfold compareVersions compareVersionsSpec
  exact compareVersionsAux_eq _ _

/-- Claim C10: `compareVersions` silently treats any component that
`strconv.Atoi` rejects as `0`: whenever every dot-separated component of
both version strings is non-numeric or `"0"` (the decidable predicate
`zeroish`), the comparison returns `0`; in particular
`compareVersions "1.beta" "1.0" == 0` and
`compareVersions "abc" "0" == 0`, so a corrupted version marker is
never a parse error and can compare equal to a real release. -/
theorem compareVersions_zeroish_components :
    (∀ v1 v2 : String,
        (splitOnDot v1).all zeroish = true → (splitOnDot v2).all zeroish = true →
        compareVersions v1 v2 = 0) ∧
    compareVersions "1.beta" "1.0" = 0 ∧
    compareVersions "abc" "0" = 0 := by
  refine ⟨fun v1 v2 h1 h2 => ?_, by decide, by decide⟩
  unfold compareVersions
  exact compareVersionsAux_zero _ _
    (fun s hs => zeroish_atoi s (List.all_eq_true.mp h1 s hs))
    (fun s hs => zeroish_atoi s (List.all_eq_true.mp h2 s hs))

/-- Witness for C10: the general statement applied to the concrete pair
`"beta.x"` / `"0.zero"`, both made of non-numeric or `"0"` components. -/
theorem compareVersions_zeroish_components_witness :
    compareVersions "beta.x" "0.zero" = 0 :=
  compareVersions_zeroish_components.1 "beta.x" "0.zero" (by decide) (by decide)

/-! ## Extraction helper lemmas -/

theorem hasPfx_self_append (p s : List Char) : hasPfx p (p ++ s) = true := by
  induction p with
  | nil => rfl
  | cons c cs ih => simp [hasPfx, ih]

theorem extractArchive_append (dest : String) (fsOk : FsAction → Bool)
    (pre rest : List TarEntry) (h : (extractArchive dest fsOk pre).2 = none) :
    extractArchive dest fsOk (pre ++ rest)
      = ((extractArchive dest fsOk pre).1 ++ (extractArchive dest fsOk rest).1,
         (extractArchive dest fsOk rest).2) := by
  induction pre with
  | nil => simp [extractArchive]
  | cons e pre ih =>
    rcases hs : entryStep dest fsOk e with msg | as
    · simp [extractArchive, hs] at h
    · simp only [extractArchive, hs] at h
      simp [List.cons_append, extractArchive, hs, ih h, List.append_assoc]

/-! ## C1: traversal rejection -/

/-- Claim C1: whenever the extraction loop reaches a tar entry whose
name fails the `filepath.IsLocal` confinement test (an absolute path,
or a relative path whose lexical resolution escapes its own subtree —
the code's check, applied to the raw entry name before any join with
the destination), the whole extraction fails with the code's
"non-local path" error and the action trace is exactly that of the
preceding entries: no file or directory is created for the rejected
entry (nor for anything after it). -/
theorem extractArchive_rejects_nonlocal (dest : String) (fsOk : FsAction → Bool)
    (pre rest : List TarEntry) (h : TarEntry)
    (hpre : (extractArchive dest fsOk pre).2 = none)
    (hbad : isLocal h.name = false) :
    extractArchive dest fsOk (pre ++ h :: rest)
      = ((extractArchive dest fsOk pre).1,
         some ("non-local path detected in tar file: " ++ h.name)) := by
  rw [extractArchive_append dest fsOk pre (h :: rest) hpre]
  have hstep : entryStep dest fsOk h
      = StepRes.fail ("non-local path detected in tar file: " ++ h.name) := by
    unfold entryStep
    rw [hbad]
    rfl
  simp [extractArchive, hstep]

/-- Witness for C1: a concrete traversal entry `../evil` is rejected
with the code's error message and produces no filesystem action. -/
theorem extractArchive_rejects_nonlocal_witness :
    extractArchive "/install" (fun _ => true) [⟨"../evil", TypeFlag.reg, 420, []⟩]
      = ([], some "non-local path detected in tar file: ../evil") :=
  extractArchive_rejects_nonlocal "/install" (fun _ => true) [] []
    ⟨"../evil", TypeFlag.reg, 420, []⟩ (by decide) (by decide)

/-! ## C5: wrapper-prefix stripping -/

/-- Counterexample to claim C5: the claim says the bare
wrapper-directory entry — which it names `Windsurf` — produces no
filesystem artifact, but `strings.TrimPrefix(header.Name, "Windsurf/")`
does not match the name `"Windsurf"` (no trailing slash), so the name
is left unstripped, is non-empty, and extraction creates the directory
`/install/Windsurf`. -/
theorem extract_bare_wrapper_artifact :
    extractArchive "/install" (fun _ => true) [⟨"Windsurf", TypeFlag.dir, 493, []⟩]
      = ([FsAction.mkdirAll "/install/Windsurf"], none) := by decide

/-- Claim C5 (amended): the installer strips one leading literal
`"Windsurf/"` from each entry name before joining with the destination
root, and leaves names without that prefix (including the bare
`"Windsurf"`) unchanged; an entry named `Windsurf/bin/app` extracted
into `/install` yields exactly the file write at `/install/bin/app`,
and the wrapper directory entry as tar encodes it, `Windsurf/`, strips
to the empty name, is skipped and produces no filesystem artifact. -/
theorem extract_strips_wrapper :
    (∀ nm : String, trimLeading ("Windsurf/" ++ nm) "Windsurf/" = nm) ∧
    (∀ s : String, strStarts s "Windsurf/" = false → trimLeading s "Windsurf/" = s) ∧
    extractArchive "/install" (fun _ => true) [⟨"Windsurf/bin/app", TypeFlag.reg, 420, [1, 2]⟩]
      = ([FsAction.writeFile "/install/bin/app" 420 [1, 2]], none) ∧
    extractArchive "/install" (fun _ => true) [⟨"Windsurf/", TypeFlag.dir, 493, []⟩]
      = ([], none) := by
  refine ⟨fun nm => ?_, fun s hs => ?_, by decide, by decide⟩
  · unfold trimLeading
    rw [String.data_append, hasPfx_self_append]
    simp [List.drop_left]
  · unfold trimLeading
    unfold strStarts at hs
    rw [hs]
    rfl

/-- Witness for C5 (amended): stripping on `Windsurf/x`, and the
no-prefix case on the bare `Windsurf`. -/
theorem extract_strips_wrapper_witness :
    trimLeading ("Windsurf/" ++ "x") "Windsurf/" = "x" ∧
    trimLeading "Windsurf" "Windsurf/" = "Windsurf" :=
  ⟨extract_strips_wrapper.1 "x", extract_strips_wrapper.2.1 "Windsurf" (by decide)⟩

/-! ## C6: regular-file extraction -/

/-- Counterexample to claim C6: the claim says extraction creates any
missing parent directories of a regular-file entry's target before
writing it, but extracting the lone entry `Windsurf/bin/app` into
`/install` performs exactly one filesystem action — the file write at
`/install/bin/app` — and no `mkdirAll` for the missing parent
`/install/bin`. -/
theorem extract_no_parent_mkdir :
    extractArchive "/install" (fun _ => true)
        [⟨"Windsurf/bin/app", TypeFlag.reg, 420, [1, 2, 3]⟩]
      = ([FsAction.writeFile "/install/bin/app" 420 [1, 2, 3]], none) := by decide

/-- Claim C6 (amended): for every regular-file tar entry accepted by
the installer (local name, non-empty after stripping), extraction
performs exactly one filesystem action for it — opening/creating the
joined target with the entry's recorded permission bits and writing
exactly the entry's byte stream — creating no parent directories; if
that open/write fails, the whole extraction aborts with an error and
the trace gains no action for the entry. -/
theorem extract_regular_file (dest : String) (fsOk : FsAction → Bool)
    (pre rest : List TarEntry) (h : TarEntry) (nm : String)
    (hpre : (extractArchive dest fsOk pre).2 = none)
    (hloc : isLocal h.name = true)
    (hty : h.typeflag = TypeFlag.reg)
    (hnm : trimLeading h.name "Windsurf/" = nm)
    (hne : nm ≠ "") :
    (fsOk (FsAction.writeFile (joinPath dest nm) h.mode h.content) = true →
      extractArchive dest fsOk (pre ++ h :: rest)
        = ((extractArchive dest fsOk pre).1
             ++ FsAction.writeFile (joinPath dest nm) h.mode h.content
                :: (extractArchive dest fsOk rest).1,
           (extractArchive dest fsOk rest).2)) ∧
    (fsOk (FsAction.writeFile (joinPath dest nm) h.mode h.content) = false →
      extractArchive dest fsOk (pre ++ h :: rest)
        = ((extractArchive dest fsOk pre).1,
           some ("open or write failed: " ++ joinPath dest nm))) := by
  constructor <;> intro hok <;>
    rw [extractArchive_append dest fsOk pre (h :: rest) hpre]
  · have hstep : entryStep dest fsOk h
        = StepRes.cont [FsAction.writeFile (joinPath dest nm) h.mode h.content] := by
      unfold entryStep
      rw [hloc, hnm, hty]
      simp [hne, hok]
    simp [extractArchive, hstep]
  · have hstep : entryStep dest fsOk h
        = StepRes.fail ("open or write failed: " ++ joinPath dest nm) := by
      unfold entryStep
      rw [hloc, hnm, hty]
      simp [hne, hok]
    simp [extractArchive, hstep]

/-- Witness for C6 (amended): the success branch on a concrete
single-entry archive. -/
theorem extract_regular_file_witness :
    extractArchive "/install" (fun _ => true)
        [⟨"Windsurf/bin/app", TypeFlag.reg, 420, [5]⟩]
      = ([FsAction.writeFile "/install/bin/app" 420 [5]], none) :=
  (extract_regular_file "/install" (fun _ => true) [] []
      ⟨"Windsurf/bin/app", TypeFlag.reg, 420, [5]⟩ "bin/app"
      (by decide) (by decide) rfl (by decide) (by decide)).1 (by decide)

/-! ## Orchestrator helper lemmas -/

theorem finishInstall_snd (env : Env) (evs : List Event) :
    (finishInstall env evs).2
      = evs ++ (if env.platformLinux = true then
          (if env.extractOk = true then [Event.extractRun, Event.writeMarker]
           else [Event.extractRun])
        else []) := by
  unfold finishInstall
  by_cases hp : env.platformLinux = true <;>
    by_cases he : env.extractOk = true <;>
      simp [hp, he]

theorem afterVerify_trace (env : Env) (evs : List Event) :
    (afterVerify env evs).2 = evs ++ (afterVerify env []).2 := by
  unfold afterVerify
  by_cases hh : env.archiveHash = env.release.sha256Hash <;>
    by_cases hi : env.installExists = true <;>
      by_cases hy : env.yes = true <;>
        by_cases hc : confirmResponse env.response = true <;>
          simp [hh, hi, hy, hc, finishInstall_snd, List.append_assoc]

theorem afterVerify_nil_no_transfer (env : Env) :
    Event.download ∉ (afterVerify env []).2 ∧
    Event.placeArchive ∉ (afterVerify env []).2 := by
  unfold afterVerify
  by_cases hh : env.archiveHash = env.release.sha256Hash <;>
    by_cases hi : env.installExists = true <;>
      by_cases hy : env.yes = true <;>
        by_cases hc : confirmResponse env.response = true <;>
          by_cases hp : env.platformLinux = true <;>
            by_cases he : env.extractOk = true <;>
              simp [hh, hi, hy, hc, hp, he, finishInstall_snd]

/-! ## C2: placement versus verification order -/

/-- Counterexample to claim C2: in a run that actually downloads (no
existing archive, download directory present, fresh install), the trace
is `download, placeArchive, verifyDigest, ...` — the downloaded file is
renamed onto the canonical archive path (`placeArchive`) strictly
before its digest is checked (`verifyDigest`), so a file does appear at
the canonical archive path whose digest has not yet been checked. -/
theorem place_before_verify_counterexample :
    (runMain ⟨false, none, true, false, true, "h", false, true, "", true, true,
        ⟨"1.0.0", "h"⟩⟩).2
      = [Event.download, Event.placeArchive, Event.verifyDigest,
         Event.mkInstallDir, Event.extractRun, Event.writeMarker] ∧
    (runMain ⟨false, none, true, false, true, "h", false, true, "", true, true,
        ⟨"1.0.0", "h"⟩⟩).2.indexOf Event.placeArchive
      < (runMain ⟨false, none, true, false, true, "h", false, true, "", true, true,
        ⟨"1.0.0", "h"⟩⟩).2.indexOf Event.verifyDigest := by decide

/-- Claim C2 (amended): in every run that performs a download, the file
is renamed onto the canonical archive path immediately after streaming
completes and digest verification happens only afterwards; on a digest
mismatch the run exits with code 1 (the unverified file remaining at
the canonical path). -/
theorem download_placed_then_verified (env : Env)
    (h1 : versionGate env = false) (h2 : env.downloadDirExists = true)
    (h3 : env.archiveExists = false) (h4 : env.downloadSucceeds = true) :
    (∃ rest, (runMain env).2
        = Event.download :: Event.placeArchive :: Event.verifyDigest :: rest) ∧
    (env.archiveHash ≠ env.release.sha256Hash →
      runMain env = (1, [Event.download, Event.placeArchive, Event.verifyDigest])) := by
  have hrw : runMain env
      = afterVerify env [Event.download, Event.placeArchive, Event.verifyDigest] := by
    simp [runMain, h1, h2, h3, h4]
  constructor
  · exact ⟨(afterVerify env []).2, by rw [hrw, afterVerify_trace]; rfl⟩
  · intro hmm
    rw [hrw]
    unfold afterVerify
    rw [if_neg hmm]

/-- Witness for C2 (amended): a concrete run with a digest mismatch
places the file and then fails verification with exit code 1. -/
theorem download_placed_then_verified_witness :
    (∃ rest, (runMain ⟨false, none, true, false, true, "bad", false, true, "", true, true,
        ⟨"1.0.0", "good"⟩⟩).2
      = Event.download :: Event.placeArchive :: Event.verifyDigest :: rest) ∧
    ((Env.archiveHash ⟨false, none, true, false, true, "bad", false, true, "", true, true,
        ⟨"1.0.0", "good"⟩⟩)
        ≠ (Env.release ⟨false, none, true, false, true, "bad", false, true, "", true, true,
        ⟨"1.0.0", "good"⟩⟩).sha256Hash →
      runMain ⟨false, none, true, false, true, "bad", false, true, "", true, true,
        ⟨"1.0.0", "good"⟩⟩
        = (1, [Event.download, Event.placeArchive, Event.verifyDigest])) :=
  download_placed_then_verified
    ⟨false, none, true, false, true, "bad", false, true, "", true, true, ⟨"1.0.0", "good"⟩⟩
    (by decide) (by decide) (by decide) (by decide)

/-! ## C7: idempotent download skip -/

/-- Claim C7: in every run that reaches the download stage and finds a
file already at the expected archive path, no network transfer occurs
(no `download` and no `placeArchive` event anywhere in the trace) and
the run proceeds directly to digest verification (the trace continues
with `verifyDigest` as its next event). -/
theorem skip_download_when_archive_exists (env : Env)
    (h1 : versionGate env = false) (h2 : env.downloadDirExists = true)
    (h3 : env.archiveExists = true) :
    Event.download ∉ (runMain env).2 ∧ Event.placeArchive ∉ (runMain env).2 ∧
    ∃ rest, (runMain env).2 = Event.verifyDigest :: rest := by
  have hrw : runMain env = afterVerify env [Event.verifyDigest] := by
    simp [runMain, h1, h2, h3]
  have htail := afterVerify_nil_no_transfer env
  refine ⟨?_, ?_, ⟨(afterVerify env []).2, by rw [hrw, afterVerify_trace]; rfl⟩⟩
  · rw [hrw, afterVerify_trace]
    simp [htail.1]
  · rw [hrw, afterVerify_trace]
    simp [htail.2]

/-- Witness for C7: a concrete run with the archive already present
performs no transfer and verifies first. -/
theorem skip_download_when_archive_exists_witness :
    Event.download ∉ (runMain ⟨false, none, true, true, true, "h", false, true, "", true, true,
        ⟨"1.0.0", "h"⟩⟩).2 ∧
    Event.placeArchive ∉ (runMain ⟨false, none, true, true, true, "h", false, true, "", true, true,
        ⟨"1.0.0", "h"⟩⟩).2 ∧
    ∃ rest, (runMain ⟨false, none, true, true, true, "h", false, true, "", true, true,
        ⟨"1.0.0", "h"⟩⟩).2 = Event.verifyDigest :: rest :=
  skip_download_when_archive_exists
    ⟨false, none, true, true, true, "h", false, true, "", true, true, ⟨"1.0.0", "h"⟩⟩
    (by decide) (by decide) (by decide)

/-! ## C8: destructive replacement requires confirmation -/

theorem afterVerify_remove_gated (env : Env) (evs : List Event)
    (hevs : Event.removeInstall ∉ evs)
    (h : Event.removeInstall ∈ (afterVerify env evs).2) :
    env.installExists = true ∧ (env.yes = true ∨ confirmResponse env.response = true) := by
  unfold afterVerify at h
  by_cases hh : env.archiveHash = env.release.sha256Hash <;>
    by_cases hi : env.installExists = true <;>
      by_cases hy : env.yes = true <;>
        by_cases hc : confirmResponse env.response = true <;>
          by_cases hp : env.platformLinux = true <;>
            by_cases he : env.extractOk = true <;>
              simp [hh, hi, hy, hc, hp, he, finishInstall_snd, hevs] at h <;>
              simp_all

/-- Claim C8: the orchestrator runs `os.RemoveAll` on the installation
root only when the root exists and either the `--yes` override is
active or the user answered the prompt affirmatively; and in a run that
reaches the confirmation prompt and is refused, the run exits with
code 1 and performs none of the install-side effects — no removal, no
directory creation, no extraction, no marker write (the already
completed download/verification stages wrote only into the download
directory). -/
theorem removal_requires_confirmation :
    (∀ env : Env, Event.removeInstall ∈ (runMain env).2 →
        env.installExists = true ∧ (env.yes = true ∨ confirmResponse env.response = true)) ∧
    (∀ env : Env, versionGate env = false → env.downloadDirExists = true →
        env.archiveHash = env.release.sha256Hash →
        env.installExists = true → env.yes = false → confirmResponse env.response = false →
        (env.archiveExists = true ∨ env.downloadSucceeds = true) →
        (runMain env).1 = 1 ∧ Event.removeInstall ∉ (runMain env).2 ∧
        Event.mkInstallDir ∉ (runMain env).2 ∧ Event.extractRun ∉ (runMain env).2 ∧
        Event.writeMarker ∉ (runMain env).2) := by
  constructor
  · intro env h
    unfold runMain at h
    by_cases h1 : versionGate env = true <;>
      by_cases h2 : env.downloadDirExists = true <;>
        by_cases h3 : env.archiveExists = true <;>
          by_cases h4 : env.downloadSucceeds = true <;>
            simp [h1, h2, h3, h4] at h <;>
            exact afterVerify_remove_gated env _ (by decide) h
  · intro env h1 h2 h3 h4 h5 h6 h7
    have hav : ∀ evs, afterVerify env evs = (1, evs ++ [Event.promptUser]) := by
      intro evs
      unfold afterVerify
      simp [h3, h4, h5, h6]
    by_cases h8 : env.archiveExists = true
    · have hrw : runMain env = afterVerify env [Event.verifyDigest] := by
        simp [runMain, h1, h2, h8]
      rw [hrw, hav]
      exact ⟨rfl, by decide, by decide, by decide, by decide⟩
    · have h8' : env.archiveExists = false := by simpa using h8
      have h9 : env.downloadSucceeds = true := by
        rcases h7 with h | h
        · exact absurd h h8
        · exact h
      have hrw : runMain env
          = afterVerify env [Event.download, Event.placeArchive, Event.verifyDigest] := by
        simp [runMain, h1, h2, h8', h9]
      rw [hrw, hav]
      exact ⟨rfl, by decide, by decide, by decide, by decide⟩

/-- Witness for C8: a concrete run in which the user answers `n` to the
prompt aborts with exit code 1 and touches nothing under the install
root. -/
theorem removal_requires_confirmation_witness :
    (runMain ⟨true, none, true, true, true, "h", false, false, "n", true, true,
        ⟨"1.0.0", "h"⟩⟩).1 = 1 ∧
    Event.removeInstall ∉ (runMain ⟨true, none, true, true, true, "h", false, false, "n", true,
        true, ⟨"1.0.0", "h"⟩⟩).2 ∧
    Event.mkInstallDir ∉ (runMain ⟨true, none, true, true, true, "h", false, false, "n", true,
        true, ⟨"1.0.0", "h"⟩⟩).2 ∧
    Event.extractRun ∉ (runMain ⟨true, none, true, true, true, "h", false, false, "n", true,
        true, ⟨"1.0.0", "h"⟩⟩).2 ∧
    Event.writeMarker ∉ (runMain ⟨true, none, true, true, true, "h", false, false, "n", true,
        true, ⟨"1.0.0", "h"⟩⟩).2 :=
  removal_requires_confirmation.2
    ⟨true, none, true, true, true, "h", false, false, "n", true, true, ⟨"1.0.0", "h"⟩⟩
    (by decide) (by decide) (by decide) (by decide) (by decide) (by decide)
    (Or.inl (by decide))

/-! ## C9: version-gate semantics -/

/-- Claim C9: when the version marker is absent or unreadable
(`markerContents = none`) the already-up-to-date gate never fires — the
run proceeds with the update instead of failing; when the marker is
readable and the install root exists, the gate fires exactly when the
force flag is off and the trimmed installed version compares not-older
(`>= 0`) against the resolved latest version; and a fired gate means
the run exits with code 0 having performed no effects. -/
theorem version_gate_spec :
    (∀ env : Env, env.markerContents = none → versionGate env = false) ∧
    (∀ (env : Env) (v : String), env.installExists = true → env.markerContents = some v →
        (versionGate env = true ↔
          (env.forceUpdate = false ∧
           0 ≤ compareVersions (trimSpace v) env.release.windsurfVersion))) ∧
    (∀ env : Env, versionGate env = true → runMain env = (0, [])) := by
  refine ⟨fun env h => ?_, fun env v hi hm => ?_, fun env h => ?_⟩
  · simp [versionGate, h]
  · unfold versionGate
    rw [hi, hm]
    simp [Bool.and_eq_true, Bool.not_eq_true', decide_eq_true_eq]
  · simp [runMain, h]

/-- Witness for C9: with an installed `2.0.0` marker and latest
`1.0.0`, the gate fires and the run exits 0 with no effects. -/
theorem version_gate_spec_witness :
    runMain ⟨true, some "2.0.0", true, true, true, "h", false, true, "", true, true,
        ⟨"1.0.0", "h"⟩⟩ = (0, []) :=
  version_gate_spec.2.2
    ⟨true, some "2.0.0", true, true, true, "h", false, true, "", true, true, ⟨"1.0.0", "h"⟩⟩
    (by decide)

/-! ## C3: range-request fallback in the downloader -/

/-- Claim C3: when a positive-size partial file exists (so the first
request carries a `Range` header) and the server answers with any
status other than 206, the downloader deletes the partial file, resets
the offset to zero, and reissues the request exactly once without the
range header (the request list is exactly `[true, false]` — no further
recursion is possible); a reply to the reissued request that is neither
200 nor 206 yields the transfer error, and an accepted reply produces
the response body alone (no stale partial content prepended, since the
offset was reset). -/
theorem range_fallback (data : List Nat) (respond : Bool → HttpResponse)
    (hne : data ≠ []) (hr : (respond true).status ≠ 206) :
    (downloadFile (some data) respond).requests = [true, false] ∧
    (downloadFile (some data) respond).removedStale = true ∧
    ((respond false).status ≠ 200 → (respond false).status ≠ 206 →
      (downloadFile (some data) respond).result
        = Except.error ("http request returned status " ++ toString (respond false).status)) ∧
    ((respond false).status = 200 ∨ (respond false).status = 206 →
      (downloadFile (some data) respond).result = Except.ok (respond false).body) := by
  have hlen : 0 < data.length := List.length_pos.mpr hne
  have hred : downloadFile (some data) respond
      = if (respond false).status = 200 ∨ (respond false).status = 206 then
          ⟨[true, false], true, Except.ok (respond false).body⟩
        else
          ⟨[true, false], true,
            Except.error ("http request returned status " ++ toString (respond false).status)⟩ := by
    unfold downloadFile
    simp [hlen, hr]
  refine ⟨?_, ?_, ?_, ?_⟩
  · rw [hred]; split <;> rfl
  · rw [hred]; split <;> rfl
  · intro ha hb
    rw [hred, if_neg (by tauto)]
  · intro hor
    rw [hred, if_pos hor]

/-- Witness for C3: a server that answers 404 to the ranged request and
500 to the plain retry produces exactly two requests, deletes the stale
partial file, and fails with the 500 transfer error. -/
theorem range_fallback_witness :
    (downloadFile (some [7]) (fun b => if b then ⟨404, []⟩ else ⟨500, [9]⟩)).requests
      = [true, false] ∧
    (downloadFile (some [7]) (fun b => if b then ⟨404, []⟩ else ⟨500, [9]⟩)).removedStale
      = true ∧
    ((500 : Nat) ≠ 200 → (500 : Nat) ≠ 206 →
      (downloadFile (some [7]) (fun b => if b then ⟨404, []⟩ else ⟨500, [9]⟩)).result
        = Except.error ("http request returned status " ++ toString (500 : Nat))) ∧
    (((500 : Nat) = 200 ∨ (500 : Nat) = 206) →
      (downloadFile (some [7]) (fun b => if b then ⟨404, []⟩ else ⟨500, [9]⟩)).result
        = Except.ok [9]) :=
  range_fallback [7] (fun b => if b then ⟨404, []⟩ else ⟨500, [9]⟩) (by decide) (by decide)

/-- Witness for C4: the refinement equation applied at a concrete pair
of version strings. -/
theorem compareVersions_componentwise_witness :
    compareVersions "3.4" "3.4.0" = compareVersionsSpec "3.4" "3.4.0" :=
  compareVersions_componentwise.1 "3.4" "3.4.0"
